import Mathlib

/-!
Verification of the scheduling and execution core of the sentinel-webscraper
repository (source: src/src/core/scheduler-job-manager.ts).  Each definition
below is a shallow embedding of the corresponding TypeScript declaration;
line numbers in comments refer to that file.  Machine integers are modelled
as Nat (timestamps from Date.now, counters, millisecond durations are
nonnegative); fallible operations return Except.
-/

namespace SchedulerSpec

/-- Execution status values (scheduler-job-manager.ts line 54). -/
inductive Status where
  | pending
  | running
  | completed
  | failed
  | timeout
deriving DecidableEq, Repr

/-- retryConfig of a ScheduledJob (lines 30-34). -/
structure RetryConfig where
  maxRetries : Nat
  backoffMultiplier : Nat
  initialDelay : Nat
deriving DecidableEq, Repr

/-- metadata of a ScheduledJob (lines 38-46).  lastRun and nextRun are
optional timestamps. -/
structure JobMetadata where
  createdAt : Nat
  updatedAt : Nat
  lastRun : Option Nat
  nextRun : Option Nat
  runCount : Nat
  errorCount : Nat
  averageRunTime : Nat
deriving DecidableEq, Repr

/-- The durable part of a ScheduledJob, i.e. the fields supplied to
createJob (Omit of metadata, lines 20-37; the target field is an opaque
config bag passed to the external job-body resolver and is not needed by
any claim, so it is omitted here). -/
structure JobDef where
  id : String
  name : String
  description : String
  cronExpression : String
  priority : Nat
  retryConfig : RetryConfig
  dependencies : List String
  timeout : Nat
  enabled : Bool
deriving DecidableEq, Repr

/-- ScheduledJob (lines 20-47): the definition plus mutable metadata. -/
structure ScheduledJob extends JobDef where
  metadata : JobMetadata
deriving DecidableEq, Repr

/-- JobExecution (lines 49-63).  metrics is reduced to the duration field;
memoryUsage and cpuUsage are process-probe values irrelevant to the claims. -/
structure JobExecution where
  id : String
  jobId : String
  startTime : Nat
  endTime : Option Nat
  status : Status
  result : Option Nat
  error : Option String
  retryAttempt : Nat
  duration : Nat
deriving DecidableEq, Repr

/-- Association-list model of a JS Map: get (Map.prototype.get). -/
def assocGet {κ α : Type} [DecidableEq κ] : List (κ × α) → κ → Option α
  | [], _ => none
  | (k', v) :: rest, k => if k' = k then some v else assocGet rest k

/-- Association-list model of a JS Map: set (Map.prototype.set replaces the
entry in place when the key exists, otherwise appends). -/
def assocSet {κ α : Type} [DecidableEq κ] : List (κ × α) → κ → α → List (κ × α)
  | [], k, v => [(k, v)]
  | (k', v') :: rest, k, v =>
      if k' = k then (k, v) :: rest else (k', v') :: assocSet rest k v

/-- States of the per-job circuit breaker (line 99).  The source calls the
middle state simply open, which is a reserved word here, so it is spelled
opened. -/
inductive CBState where
  | closed
  | opened
  | halfOpen
deriving DecidableEq, Repr

/-- CircuitBreaker instance state together with its constructor parameters
(lines 96-104): failureCount and lastFailureTime start at 0, state starts
closed; threshold and timeout are the constructor arguments. -/
structure CircuitBreaker where
  failureCount : Nat
  lastFailureTime : Nat
  state : CBState
  threshold : Nat
  timeout : Nat
deriving DecidableEq, Repr

/-- A freshly constructed CircuitBreaker (lines 97-104). -/
def CircuitBreaker.init (threshold timeoutMs : Nat) : CircuitBreaker :=
  { failureCount := 0, lastFailureTime := 0, state := .closed,
    threshold := threshold, timeout := timeoutMs }

/-- Observable outcome of one CircuitBreaker.execute call: the rejected
outcome means the wrapped operation was never invoked. -/
inductive CBOutcome where
  | rejected
  | succeeded (a : Nat)
  | failed (e : String)
deriving DecidableEq, Repr

/-- onSuccess (lines 125-128). -/
def CircuitBreaker.onSuccess (cb : CircuitBreaker) : CircuitBreaker :=
  { cb with failureCount := 0, state := .closed }

/-- onFailure (lines 130-137): increment failureCount, record the failure
time, and open the breaker once the threshold is reached. -/
def CircuitBreaker.onFailure (cb : CircuitBreaker) (now : Nat) : CircuitBreaker :=
  let fc := cb.failureCount + 1
  { cb with
    failureCount := fc
    lastFailureTime := now
    state := if cb.threshold ≤ fc then .opened else cb.state }

/-- The try/catch body of execute (lines 115-122): run the operation, then
apply onSuccess or onFailure.  The operation itself is modelled by its
result. -/
def CircuitBreaker.runOp (cb : CircuitBreaker) (now : Nat) (r : Except String Nat) :
    CBOutcome × CircuitBreaker :=
  match r with
  | .ok a => (.succeeded a, cb.onSuccess)
  | .error e => (.failed e, cb.onFailure now)

/-- execute (lines 106-123): when the breaker is open, either reject
immediately (cooldown not yet elapsed) or move to half-open and run the
single trial; otherwise run the operation. -/
def CircuitBreaker.execute (cb : CircuitBreaker) (now : Nat) (r : Except String Nat) :
    CBOutcome × CircuitBreaker :=
  if cb.state = .opened then
    if cb.timeout < now - cb.lastFailureTime then
      CircuitBreaker.runOp { cb with state := .halfOpen } now r
    else
      (.rejected, cb)
  else CircuitBreaker.runOp cb now r

/-- Helper: execute never changes the constructor parameter threshold. -/
theorem CircuitBreaker.execute_threshold (cb : CircuitBreaker) (now : Nat)
    (r : Except String Nat) : (cb.execute now r).2.threshold = cb.threshold := by
  unfold CircuitBreaker.execute
  split
  · split
    · cases r <;> simp [CircuitBreaker.runOp, CircuitBreaker.onSuccess,
        CircuitBreaker.onFailure]
    · rfl
  · cases r <;> simp [CircuitBreaker.runOp, CircuitBreaker.onSuccess,
      CircuitBreaker.onFailure]

/-- A streak of k consecutive failed executions starting from cb, the k-th
call happening at time times k (every call carries an error result). -/
def iterFail (cb : CircuitBreaker) (e : String) (times : Nat → Nat) : Nat → CircuitBreaker
  | 0 => cb
  | k + 1 => ((iterFail cb e times k).execute (times k) (.error e)).2

/-- Helper: a failure streak never changes the threshold parameter. -/
theorem iterFail_threshold (cb : CircuitBreaker) (e : String) (times : Nat → Nat) :
    ∀ k, (iterFail cb e times k).threshold = cb.threshold
  | 0 => rfl
  | k + 1 => by
      show (CircuitBreaker.execute _ _ _).2.threshold = cb.threshold
      rw [CircuitBreaker.execute_threshold]
      exact iterFail_threshold cb e times k

/-- C1: the per-job circuit breaker is a three-state machine: it starts
closed with failureCount 0; each failed execution that reaches the
operation increments failureCount and records lastFailureTime; exactly N
consecutive failures (N = failureThreshold) take it from closed to open
and it is still closed strictly before the N-th; while open, every call
within the cooldown is rejected without invoking the operation and leaves
the state untouched; once more than timeoutMs has elapsed since
lastFailureTime the next call is a half-open trial whose success resets
the breaker to closed with failureCount 0 and whose failure returns it to
open with lastFailureTime refreshed. -/
theorem circuit_breaker_three_state (N T : Nat) (e : String) (times : Nat → Nat)
    (hN : 1 ≤ N) :
    ((CircuitBreaker.init N T).state = CBState.closed ∧
      (CircuitBreaker.init N T).failureCount = 0) ∧
    (∀ (cb : CircuitBreaker) (now : Nat) (r : String), cb.state ≠ CBState.opened →
      ((cb.execute now (Except.error r)).2.failureCount = cb.failureCount + 1 ∧
       (cb.execute now (Except.error r)).2.lastFailureTime = now)) ∧
    (∀ k, k ≤ N →
      (iterFail (CircuitBreaker.init N T) e times k).failureCount = k ∧
      (iterFail (CircuitBreaker.init N T) e times k).state =
        (if k < N then CBState.closed else CBState.opened)) ∧
    (∀ (cb : CircuitBreaker) (now : Nat) (r : Except String Nat),
      cb.state = CBState.opened →
      now - cb.lastFailureTime ≤ cb.timeout →
      cb.execute now r = (CBOutcome.rejected, cb)) ∧
    (∀ (cb : CircuitBreaker) (now a : Nat), cb.state = CBState.opened →
      cb.timeout < now - cb.lastFailureTime →
      cb.execute now (Except.ok a) =
        (CBOutcome.succeeded a,
         { cb with state := CBState.closed, failureCount := 0 })) ∧
    (∀ (cb : CircuitBreaker) (now : Nat) (r : String), cb.state = CBState.opened →
      cb.timeout < now - cb.lastFailureTime →
      cb.threshold ≤ cb.failureCount →
      ((cb.execute now (Except.error r)).1 = CBOutcome.failed r ∧
       (cb.execute now (Except.error r)).2.state = CBState.opened ∧
       (cb.execute now (Except.error r)).2.lastFailureTime = now)) := by
  refine ⟨⟨rfl, rfl⟩, ?_, ?_, ?_, ?_, ?_⟩
  · intro cb now r hne
    simp [CircuitBreaker.execute, if_neg hne, CircuitBreaker.runOp,
      CircuitBreaker.onFailure]
  · intro k hk
    induction k with
    | zero =>
        refine ⟨rfl, ?_⟩
        simp [iterFail, CircuitBreaker.init, Nat.lt_of_lt_of_le Nat.zero_lt_one hN]
    | succ k ih =>
        have hk' : k ≤ N := Nat.le_of_succ_le hk
        have hklt : k < N := Nat.lt_of_succ_le hk
        obtain ⟨hfc, hst⟩ := ih hk'
        have hstc : (iterFail (CircuitBreaker.init N T) e times k).state = CBState.closed := by
          rw [hst, if_pos hklt]
        have hth : (iterFail (CircuitBreaker.init N T) e times k).threshold = N :=
          iterFail_threshold (CircuitBreaker.init N T) e times k
        show ((iterFail (CircuitBreaker.init N T) e times k).execute
                (times k) (Except.error e)).2.failureCount = k + 1 ∧
             ((iterFail (CircuitBreaker.init N T) e times k).execute
                (times k) (Except.error e)).2.state =
               (if k + 1 < N then CBState.closed else CBState.opened)
        have hne : (iterFail (CircuitBreaker.init N T) e times k).state ≠ CBState.opened := by
          rw [hstc]; intro h; exact CBState.noConfusion h
        simp only [CircuitBreaker.execute, if_neg hne, CircuitBreaker.runOp,
          CircuitBreaker.onFailure, hfc, hth, hstc]
        refine ⟨rfl, ?_⟩
        by_cases hNk : N ≤ k + 1
        · have hlt : ¬ (k + 1 < N) := by omega
          simp [hNk, hlt]
        · have hlt : k + 1 < N := by omega
          simp [hNk, hlt]
  · intro cb now r hs hle
    simp only [CircuitBreaker.execute, if_pos hs, if_neg (by omega : ¬ cb.timeout < now - cb.lastFailureTime)]
  · intro cb now a hs hlt
    simp only [CircuitBreaker.execute, if_pos hs, if_pos hlt, CircuitBreaker.runOp,
      CircuitBreaker.onSuccess]
  · intro cb now r hs hlt hth
    simp only [CircuitBreaker.execute, if_pos hs, if_pos hlt, CircuitBreaker.runOp,
      CircuitBreaker.onFailure]
    simp [Nat.le_succ_of_le hth]

/-- C1 witness: with threshold 2, two consecutive failures open the breaker
of a freshly constructed instance. -/
theorem circuit_breaker_three_state_witness :
    (iterFail (CircuitBreaker.init 2 5) "boom" (fun _ => 0) 2).state = CBState.opened := by
  have h := (circuit_breaker_three_state 2 5 "boom" (fun _ => 0) (by decide)).2.2.1
             2 (Nat.le_refl 2)
  simpa using h.2

/-- Decide whether an Except value is an error. -/
def isError {ε α : Type} : Except ε α → Bool
  | .error _ => true
  | .ok _ => false

deriving instance DecidableEq for Except

/-- Trace of one runJobWithRetry call: how many times the operation body was
invoked, the backoff sleeps performed between attempts (in order), and the
value returned or error finally thrown. -/
structure RetryTrace where
  attempts : Nat
  delays : List Nat
  result : Except String Nat
deriving DecidableEq, Repr

/-- The retry loop of runJobWithRetry (lines 504-537), indexed by the current
attempt number and the number of attempts still allowed after it.  Each
iteration invokes the operation (op gives the result of the attempt with
the given index); on failure with attempts remaining it sleeps
initialDelay * backoffMultiplier ^ attempt; after the last failed attempt
the last error is rethrown. -/
def runRetryAux (op : Nat → Except String Nat) (d b : Nat) (attempt : Nat) :
    Nat → RetryTrace
  | 0 =>
      match op attempt with
      | .ok a => { attempts := 1, delays := [], result := .ok a }
      | .error e => { attempts := 1, delays := [], result := .error e }
  | rem + 1 =>
      match op attempt with
      | .ok a => { attempts := 1, delays := [], result := .ok a }
      | .error _ =>
          let t := runRetryAux op d b (attempt + 1) rem
          { attempts := t.attempts + 1
            delays := d * b ^ attempt :: t.delays
            result := t.result }

/-- runJobWithRetry (lines 500-538) for a job with retry policy
maxRetries = R, initialDelay = d, backoffMultiplier = b: the loop runs
attempts 0..R. -/
def runJobWithRetry (op : Nat → Except String Nat) (maxRetries d b : Nat) : RetryTrace :=
  runRetryAux op d b 0 maxRetries

/-- Helper: a permanently failing operation is attempted rem+1 times from
any starting attempt index, with one backoff sleep after every attempt but
the last, and the final result is the error of the last attempt. -/
theorem runRetryAux_all_fail (op : Nat → Except String Nat) (d b : Nat) :
    ∀ rem attempt, (∀ k, k ≤ rem → isError (op (attempt + k)) = true) →
    runRetryAux op d b attempt rem =
      { attempts := rem + 1
        delays := (List.range rem).map (fun k => d * b ^ (attempt + k))
        result := op (attempt + rem) } := by
  intro rem
  induction rem with
  | zero =>
      intro attempt h
      have h0 := h 0 (Nat.le_refl 0)
      cases he : op attempt with
      | ok a => rw [Nat.add_zero, he] at h0; simp [isError] at h0
      | error e => simp [runRetryAux, he]
  | succ rem ih =>
      intro attempt h
      have h0 := h 0 (Nat.zero_le _)
      cases he : op attempt with
      | ok a => rw [Nat.add_zero, he] at h0; simp [isError] at h0
      | error e =>
          have hrec := ih (attempt + 1) (fun k hk => by
            have h' := h (k + 1) (Nat.succ_le_succ hk)
            have heq : attempt + (k + 1) = attempt + 1 + k := by omega
            rw [heq] at h'
            exact h')
          have hres : attempt + 1 + rem = attempt + (rem + 1) := by omega
          have hdel : (List.range (rem + 1)).map (fun k => d * b ^ (attempt + k)) =
              d * b ^ attempt :: (List.range rem).map (fun k => d * b ^ (attempt + 1 + k)) := by
            rw [List.range_succ_eq_map, List.map_cons, List.map_map]
            refine congrArg₂ List.cons (by rw [Nat.add_zero]) ?_
            refine List.map_congr_left ?_
            intro k hk
            show d * b ^ (attempt + (k + 1)) = d * b ^ (attempt + 1 + k)
            have heq : attempt + (k + 1) = attempt + 1 + k := by omega
            rw [heq]
          simp only [runRetryAux, he, hrec, hdel, ← hres]


/-- Helper: when attempt index attempt+j is the first success and earlier
attempts fail, the loop stops at it: j+1 invocations, j backoff sleeps, and
the successful value is returned. -/
theorem runRetryAux_first_success (op : Nat → Except String Nat) (d b : Nat) :
    ∀ j rem attempt a, j ≤ rem →
    (∀ k, k < j → isError (op (attempt + k)) = true) →
    op (attempt + j) = Except.ok a →
    runRetryAux op d b attempt rem =
      { attempts := j + 1
        delays := (List.range j).map (fun k => d * b ^ (attempt + k))
        result := .ok a } := by
  intro j
  induction j with
  | zero =>
      intro rem attempt a hj hfail hok
      rw [Nat.add_zero] at hok
      cases rem with
      | zero => simp [runRetryAux, hok]
      | succ rem => simp [runRetryAux, hok]
  | succ j ih =>
      intro rem attempt a hj hfail hok
      have h0 : isError (op (attempt + 0)) = true := hfail 0 (Nat.zero_lt_succ j)
      rw [Nat.add_zero] at h0
      cases rem with
      | zero => omega
      | succ rem =>
          cases he : op attempt with
          | ok v => rw [he] at h0; simp [isError] at h0
          | error e =>
              have hrec := ih rem (attempt + 1) a (Nat.le_of_succ_le_succ hj)
                (fun k hk => by
                  have h' := hfail (k + 1) (Nat.succ_lt_succ hk)
                  have heq : attempt + (k + 1) = attempt + 1 + k := by omega
                  rw [heq] at h'
                  exact h')
                (by
                  have heq : attempt + (j + 1) = attempt + 1 + j := by omega
                  rw [heq] at hok
                  exact hok)
              have hdel : (List.range (j + 1)).map (fun k => d * b ^ (attempt + k)) =
                  d * b ^ attempt ::
                    (List.range j).map (fun k => d * b ^ (attempt + 1 + k)) := by
                rw [List.range_succ_eq_map, List.map_cons, List.map_map]
                refine congrArg₂ List.cons (by rw [Nat.add_zero]) ?_
                refine List.map_congr_left ?_
                intro k hk
                show d * b ^ (attempt + (k + 1)) = d * b ^ (attempt + 1 + k)
                have heq : attempt + (k + 1) = attempt + 1 + k := by omega
                rw [heq]
              simp only [runRetryAux, he, hrec, hdel]

/-- C2: with maxRetries = R, a permanently failing operation is invoked
exactly R+1 times, the sleep between attempt k and attempt k+1 is
initialDelay * backoffMultiplier ^ k for k = 0..R-1 (no sleep after the
last attempt), and the error finally thrown is the one produced by the
last attempt (the trace result equals op R); an operation whose first
success is attempt j ≤ R is invoked only j+1 times and its value is
returned. -/
theorem runJobWithRetry_spec (R d b : Nat) (op : Nat → Except String Nat) :
    ((∀ k, k ≤ R → isError (op k) = true) →
      runJobWithRetry op R d b =
        { attempts := R + 1
          delays := (List.range R).map (fun k => d * b ^ k)
          result := op R }) ∧
    (∀ j a, j ≤ R → (∀ k, k < j → isError (op k) = true) → op j = Except.ok a →
      runJobWithRetry op R d b =
        { attempts := j + 1
          delays := (List.range j).map (fun k => d * b ^ k)
          result := .ok a }) := by
  constructor
  · intro hfail
    have h := runRetryAux_all_fail op d b R 0 (fun k hk => by
      rw [Nat.zero_add]
      exact hfail k hk)
    rw [runJobWithRetry, h]
    simp [Nat.zero_add]
  · intro j a hj hfail hok
    have h := runRetryAux_first_success op d b j R 0 a hj
      (fun k hk => by rw [Nat.zero_add]; exact hfail k hk)
      (by rw [Nat.zero_add]; exact hok)
    rw [runJobWithRetry, h]
    simp [Nat.zero_add]

/-- C2 witness: with maxRetries 2, initialDelay 100, multiplier 2, an
always-failing operation runs 3 times with sleeps 100 and 200 and finally
throws the last error, and an operation succeeding on attempt 1 stops
after 2 invocations. -/
theorem runJobWithRetry_spec_witness :
    runJobWithRetry (fun _ => Except.error "boom") 2 100 2 =
      { attempts := 3, delays := [100, 200], result := Except.error "boom" } ∧
    runJobWithRetry (fun k => if k = 0 then Except.error "x" else Except.ok 7) 2 100 2 =
      { attempts := 2, delays := [100], result := Except.ok 7 } := by
  constructor
  · have h := (runJobWithRetry_spec 2 100 2 (fun _ => Except.error "boom")).1
      (fun k hk => rfl)
    rw [h]
    rfl
  · have h := (runJobWithRetry_spec 2 100 2
        (fun k => if k = 0 then Except.error "x" else Except.ok 7)).2 1 7
      (by decide)
      (fun k hk => by
        have hk0 : k = 0 := by omega
        rw [hk0]
        rfl)
      rfl
    rw [h]
    rfl

/-- The per-dependency readiness test, i.e. the body of the loop in
checkDependencies (lines 588-599): the dependency job must exist, its
metadata.lastRun must be truthy (set and nonzero, per the JS !-test on an
optional number) and its errorCount must not be positive. -/
def depReady (jobs : List (String × ScheduledJob)) (depJobId : String) : Bool :=
  match assocGet jobs depJobId with
  | none => false
  | some job =>
      (match job.metadata.lastRun with
       | none => false
       | some t => decide (t ≠ 0)) && decide (¬ job.metadata.errorCount > 0)

/-- checkDependencies (lines 585-603): an empty list is ready, otherwise
the loop with early return false is the conjunction of depReady over the
list. -/
def checkDependencies (jobs : List (String × ScheduledJob))
    (dependencies : List String) : Bool :=
  dependencies.all (depReady jobs)

/-- Helper: characterization of the single-dependency test. -/
theorem depReady_iff (jobs : List (String × ScheduledJob)) (d : String) :
    depReady jobs d = true ↔
      ∃ job, assocGet jobs d = some job ∧
        (∃ t, job.metadata.lastRun = some t ∧ t ≠ 0) ∧
        job.metadata.errorCount = 0 := by
  unfold depReady
  cases hg : assocGet jobs d with
  | none => simp
  | some job =>
      cases hl : job.metadata.lastRun with
      | none => simp [hl]
      | some t =>
          simp only [hl, Bool.and_eq_true, decide_eq_true_eq, Option.some.injEq]
          constructor
          · intro hb
            exact ⟨job, rfl, ⟨t, hl, hb.1⟩, by have h2 := hb.2; omega⟩
          · intro hb
            obtain ⟨job2, hj2, ⟨t2, ht2, htne⟩, herr⟩ := hb
            cases hj2
            rw [hl] at ht2
            cases ht2
            exact ⟨htne, by omega⟩

/-- C5: the dependency gate returns ready iff every listed job id exists in
the registry, has executed at least once (lastRun is a set, necessarily
nonzero Date.now timestamp), and has cumulative errorCount exactly zero;
the empty dependency list is always ready. -/
theorem checkDependencies_spec (jobs : List (String × ScheduledJob))
    (dependencies : List String) :
    (checkDependencies jobs dependencies = true ↔
      ∀ d ∈ dependencies, ∃ job, assocGet jobs d = some job ∧
        (∃ t, job.metadata.lastRun = some t ∧ t ≠ 0) ∧
        job.metadata.errorCount = 0) ∧
    checkDependencies jobs [] = true := by
  refine ⟨?_, rfl⟩
  rw [checkDependencies, List.all_eq_true]
  constructor
  · intro h d hd
    exact (depReady_iff jobs d).mp (h d hd)
  · intro h d hd
    exact (depReady_iff jobs d).mpr (h d hd)

/-- C5 witness: a one-job registry whose job has run once cleanly makes a
single-dependency list ready. -/
theorem checkDependencies_spec_witness :
    checkDependencies
      [("a", { id := "a", name := "A", description := "", cronExpression := "* * * * *",
               priority := 1,
               retryConfig := { maxRetries := 0, backoffMultiplier := 1, initialDelay := 100 },
               dependencies := [], timeout := 1000, enabled := true,
               metadata := { createdAt := 1, updatedAt := 1, lastRun := some 5,
                             nextRun := none, runCount := 1, errorCount := 0,
                             averageRunTime := 3 } })]
      ["a"] = true := by
  refine (checkDependencies_spec _ _).1.mpr ?_
  intro d hd
  simp only [List.mem_singleton] at hd
  subst hd
  refine ⟨_, rfl, ⟨5, rfl, by decide⟩, rfl⟩

/-- Configuration of one PQueue lane created by the PriorityJobQueue
constructor (lines 198-207). -/
structure LaneConfig where
  concurrency : Nat
  intervalCap : Nat
  interval : Nat
deriving DecidableEq, Repr

/-- The concurrency budget assigned to a priority lane (line 202):
Math.max(1, Math.floor(concurrency / priority)); Nat division is the
floor. -/
def laneConcurrency (concurrency priority : Nat) : Nat :=
  max 1 (concurrency / priority)

/-- The five lanes installed in the queues map by the constructor loop
(lines 200-206), keyed by priority 1..5, each with intervalCap 10 per
interval 1000 ms. -/
def makeLanes (concurrency : Nat) : List (Nat × LaneConfig) :=
  (List.range' 1 5).map (fun priority =>
    (priority,
     { concurrency := laneConcurrency concurrency priority
       intervalCap := 10
       interval := 1000 }))

/-- C7: for every total budget C at least 1, lane i (i = 1..5) is created
with concurrency max(1, floor(C / i)) and a 10-admissions-per-1000ms rate
cap; for priorities p1 less than p2 the budget of lane p1 is at least that
of lane p2; and no lane budget is below 1. -/
theorem priority_lane_budgets (C : Nat) (hC : 1 ≤ C) :
    (∀ p, 1 ≤ p → p ≤ 5 →
      assocGet (makeLanes C) p =
        some { concurrency := max 1 (C / p), intervalCap := 10, interval := 1000 }) ∧
    (∀ p1 p2, 1 ≤ p1 → p1 < p2 →
      laneConcurrency C p2 ≤ laneConcurrency C p1) ∧
    (∀ p, 1 ≤ laneConcurrency C p) := by
  refine ⟨?_, ?_, ?_⟩
  · intro p h1 h5
    interval_cases p <;> rfl
  · intro p1 p2 h1 h12
    exact max_le_max (Nat.le_refl 1)
      (Nat.div_le_div_left (Nat.le_of_lt h12) (Nat.lt_of_lt_of_le Nat.zero_lt_one h1))
  · intro p
    exact le_max_left 1 _

/-- C7 witness: with a total budget of 5, lane 2 gets budget 2 and lane 5
gets budget 1, which is not larger. -/
theorem priority_lane_budgets_witness :
    assocGet (makeLanes 5) 2 =
      some { concurrency := 2, intervalCap := 10, interval := 1000 } ∧
    laneConcurrency 5 5 ≤ laneConcurrency 5 2 := by
  constructor
  · have h := (priority_lane_budgets 5 (by decide)).1 2 (by decide) (by decide)
    rw [h]
    rfl
  · exact (priority_lane_budgets 5 (by decide)).2.1 2 5 (by decide) (by decide)

/-- A current-usage sample of the ResourceMonitor (lines 148-171):
memory is Math.round(heapUsed / heapTotal * 100); the cpu field of the
value returned synchronously is the literal 0 of line 170 (the
event-loop-lag sample is only pushed on a later tick by setImmediate). -/
structure ResourceUsage where
  memory : Nat
  cpu : Nat
deriving DecidableEq, Repr

/-- Math.round(heapUsed / heapTotal * 100) over the reals, expressed with
Nat arithmetic: round(x) = floor(x + 1/2) and
floor(100u/t + 1/2) = floor((200u + t) / (2t)). -/
def memoryPct (heapUsed heapTotal : Nat) : Nat :=
  (200 * heapUsed + heapTotal) / (2 * heapTotal)

/-- getCurrentUsage (lines 148-171): the synchronous return value. -/
def getCurrentUsage (heapUsed heapTotal : Nat) : ResourceUsage :=
  { memory := memoryPct heapUsed heapTotal, cpu := 0 }

/-- isSystemOverloaded (lines 187-190): current.memory > 85 ||
current.cpu > 90 on the synchronous reading. -/
def isSystemOverloaded (heapUsed heapTotal : Nat) : Bool :=
  decide ((getCurrentUsage heapUsed heapTotal).memory > 85) ||
    decide ((getCurrentUsage heapUsed heapTotal).cpu > 90)

/-- C9: the synchronous current-usage reading always reports cpu = 0, so
isSystemOverloaded is true iff the rounded heap-memory percentage exceeds
85; the cpu-above-90 disjunct can never fire. -/
theorem resource_monitor_cpu_dead (heapUsed heapTotal : Nat) :
    (getCurrentUsage heapUsed heapTotal).cpu = 0 ∧
    (isSystemOverloaded heapUsed heapTotal = true ↔
      85 < memoryPct heapUsed heapTotal) := by
  constructor
  · rfl
  · simp [isSystemOverloaded, getCurrentUsage]

/-- C9 witness: at 90 percent heap usage the monitor reports overload, in
line with the memory-only characterization. -/
theorem resource_monitor_cpu_dead_witness :
    isSystemOverloaded 90 100 = true := by
  exact (resource_monitor_cpu_dead 90 100).2.mpr (by decide)

/-- The descending start-time comparator used by cleanupExecutionHistory
(line 622): sort(([, a], [, b]) => b.startTime - a.startTime) orders an
entry before another when its startTime is at least as large. -/
def execDescRel (a b : String × JobExecution) : Prop :=
  b.2.startTime ≤ a.2.startTime

instance : DecidableRel execDescRel := fun a b =>
  Nat.decLe b.2.startTime a.2.startTime

instance : IsTotal (String × JobExecution) execDescRel :=
  ⟨fun a b => Nat.le_total b.2.startTime a.2.startTime⟩

instance : IsTrans (String × JobExecution) execDescRel :=
  ⟨fun _ _ _ hab hbc => Nat.le_trans hbc hab⟩

/-- cleanupExecutionHistory (lines 618-629): a ledger within the limit is
left unchanged; otherwise the entries are sorted by descending startTime
and only the first executionHistoryLimit of them are kept (the map is
rebuilt from that slice). -/
def cleanupExecutionHistory (executionHistoryLimit : Nat)
    (executions : List (String × JobExecution)) : List (String × JobExecution) :=
  if executions.length ≤ executionHistoryLimit then executions
  else (List.insertionSort execDescRel executions).take executionHistoryLimit

/-- C8: after the trim the ledger has at most executionHistoryLimit
entries; a ledger already within the limit is unchanged; and when the
pre-trim ledger exceeds the limit, exactly executionHistoryLimit entries
are kept, they are a sub-collection of the original ledger, and every
retained entry has a startTime at least that of every evicted entry. -/
theorem cleanup_execution_history_spec (limit : Nat)
    (executions : List (String × JobExecution)) :
    (cleanupExecutionHistory limit executions).length ≤ limit ∧
    (executions.length ≤ limit → cleanupExecutionHistory limit executions = executions) ∧
    (limit < executions.length →
      (cleanupExecutionHistory limit executions).length = limit ∧
      ∃ dropped,
        (cleanupExecutionHistory limit executions ++ dropped).Perm executions ∧
        ∀ x ∈ cleanupExecutionHistory limit executions, ∀ y ∈ dropped,
          y.2.startTime ≤ x.2.startTime) := by
  by_cases h : executions.length ≤ limit
  · refine ⟨?_, fun _ => ?_, fun hlt => absurd hlt (by omega)⟩
    · rw [cleanupExecutionHistory, if_pos h]
      exact h
    · rw [cleanupExecutionHistory, if_pos h]
  · have hlt : limit < executions.length := Nat.lt_of_not_le h
    have hsortlen : (List.insertionSort execDescRel executions).length =
        executions.length := List.length_insertionSort execDescRel executions
    have hlen : (cleanupExecutionHistory limit executions).length = limit := by
      rw [cleanupExecutionHistory, if_neg h, List.length_take, hsortlen]
      omega
    refine ⟨by omega, fun hle => absurd hle h, fun _ => ⟨hlen, ?_⟩⟩
    refine ⟨(List.insertionSort execDescRel executions).drop limit, ?_, ?_⟩
    · rw [cleanupExecutionHistory, if_neg h, List.take_append_drop]
      exact List.perm_insertionSort execDescRel executions
    · intro x hx y hy
      have hsorted : List.Pairwise execDescRel
          (List.insertionSort execDescRel executions) :=
        List.sorted_insertionSort execDescRel executions
      rw [← List.take_append_drop limit (List.insertionSort execDescRel executions)]
        at hsorted
      have hcross := (List.pairwise_append.mp hsorted).2.2
      rw [cleanupExecutionHistory, if_neg h] at hx
      exact hcross x hx y hy

/-- C8 witness: with limit 1, of two entries the one with the later start
time is kept and the ledger shrinks to exactly one entry. -/
theorem cleanup_execution_history_spec_witness :
    (cleanupExecutionHistory 1
      [("e1", { id := "e1", jobId := "a", startTime := 10, endTime := some 11,
                status := Status.completed, result := none, error := none,
                retryAttempt := 0, duration := 1 }),
       ("e2", { id := "e2", jobId := "a", startTime := 20, endTime := some 21,
                status := Status.completed, result := none, error := none,
                retryAttempt := 0, duration := 1 })]).length = 1 := by
  exact ((cleanup_execution_history_spec 1 _).2.2 (by decide)).1

/-- Behaviour of the admitted unit of work inside the priority queue
(lines 458-464): either the retry loop runs to settlement, or the p-queue
timeout fires after some number of retry attempts have already started
(each such attempt having set the execution status to running). -/
inductive QueueOutcome where
  | runsToEnd
  | timesOutAfter (startedAttempts : Nat)
deriving DecidableEq, Repr

/-- The timeout rejection message produced by the queue for an admitted
unit of work that exceeds job.timeout milliseconds. -/
def queueTimeoutMsg (ms : Nat) : String :=
  "Promise timed out after " ++ toString ms ++ " milliseconds"

/-- The settlement of the admitted unit of work as seen by the circuit
breaker: the retry-loop result, or the queue timeout error. -/
def admittedExcept (job : ScheduledJob) (op : Nat → Except String Nat)
    (q : QueueOutcome) : Except String Nat :=
  match q with
  | .runsToEnd =>
      (runJobWithRetry op job.retryConfig.maxRetries job.retryConfig.initialDelay
        job.retryConfig.backoffMultiplier).result
  | .timesOutAfter _ => .error (queueTimeoutMsg job.timeout)

/-- How many retry attempts started (each sets status running, line 506)
before the admitted work settled. -/
def bodyAttempts (job : ScheduledJob) (op : Nat → Except String Nat)
    (q : QueueOutcome) : Nat :=
  match q with
  | .runsToEnd =>
      (runJobWithRetry op job.retryConfig.maxRetries job.retryConfig.initialDelay
        job.retryConfig.backoffMultiplier).attempts
  | .timesOutAfter k => k

/-- getNextRunTime (lines 606-609): the placeholder Date.now() + 60000. -/
def getNextRunTime (now : Nat) : Nat := now + 60000

/-- calculateAverageRunTime (lines 611-616), called with runCount already
incremented: Math.round(((currentAvg * (runCount - 1)) + newDuration) /
runCount), with round(x) = floor((2x + 1) / 2) over the rationals. -/
def calculateAverageRunTime (currentAvg runCount newDuration : Nat) : Nat :=
  (2 * (currentAvg * (runCount - 1) + newDuration) + runCount) / (2 * runCount)

/-- Result of one executeJob call that got past the guards: the finalized
execution record, the chronological sequence of status values the record
held, the updated job, the names of the emitted lifecycle events, and the
circuit breaker after the call. -/
structure ExecOutcome where
  execution : JobExecution
  trace : List Status
  jobAfter : ScheduledJob
  events : List String
  cbAfter : CircuitBreaker
deriving DecidableEq, Repr

/-- executeJob (lines 418-497) for one firing at time t0 settling at time
t1: guard on existence, the enabled flag (bypassed when manual) and the
dependency gate (checked only when not manual, line 429); then create the
pending execution and run the admitted work through the circuit breaker; a
success finalizes status completed and updates run statistics; any failure
(circuit-open rejection, retry exhaustion or queue timeout) lands in the
catch block which sets status failed, stores the message, increments the
job errorCount and emits job:failed. -/
def executeJob (jobs : List (String × ScheduledJob)) (cb : CircuitBreaker)
    (jobId : String) (manual : Bool) (op : Nat → Except String Nat)
    (q : QueueOutcome) (t0 t1 : Nat) : Except String ExecOutcome :=
  match assocGet jobs jobId with
  | none => .error ("Job not found: " ++ jobId)
  | some job =>
    if job.enabled = false ∧ manual = false then
      .error ("Job is disabled: " ++ jobId)
    else if manual = false ∧ checkDependencies jobs job.dependencies = false then
      .error ("Job dependencies not met: " ++ jobId)
    else
      match (cb.execute t1 (admittedExcept job op q)).1 with
      | CBOutcome.rejected =>
          .ok { execution :=
                  { id := jobId ++ "_" ++ toString t0, jobId := jobId,
                    startTime := t0, endTime := some t1, status := Status.failed,
                    result := none,
                    error := some "Circuit breaker is OPEN - operation rejected",
                    retryAttempt := 0, duration := t1 - t0 }
                trace := [Status.pending, Status.failed]
                jobAfter := { job with metadata :=
                  { job.metadata with errorCount := job.metadata.errorCount + 1 } }
                events := ["job:failed"]
                cbAfter := (cb.execute t1 (admittedExcept job op q)).2 }
      | CBOutcome.succeeded a =>
          .ok { execution :=
                  { id := jobId ++ "_" ++ toString t0, jobId := jobId,
                    startTime := t0, endTime := some t1, status := Status.completed,
                    result := some a, error := none,
                    retryAttempt := bodyAttempts job op q - 1, duration := t1 - t0 }
                trace := Status.pending ::
                  (List.replicate (bodyAttempts job op q) Status.running ++
                    [Status.completed])
                jobAfter := { job with metadata :=
                  { job.metadata with
                    runCount := job.metadata.runCount + 1
                    lastRun := some t0
                    nextRun := some (getNextRunTime t1)
                    averageRunTime := calculateAverageRunTime
                      job.metadata.averageRunTime (job.metadata.runCount + 1)
                      (t1 - t0) } }
                events := ["job:completed"]
                cbAfter := (cb.execute t1 (admittedExcept job op q)).2 }
      | CBOutcome.failed msg =>
          .ok { execution :=
                  { id := jobId ++ "_" ++ toString t0, jobId := jobId,
                    startTime := t0, endTime := some t1, status := Status.failed,
                    result := none, error := some msg,
                    retryAttempt := bodyAttempts job op q - 1, duration := t1 - t0 }
                trace := Status.pending ::
                  (List.replicate (bodyAttempts job op q) Status.running ++
                    [Status.failed])
                jobAfter := { job with metadata :=
                  { job.metadata with errorCount := job.metadata.errorCount + 1 } }
                events := ["job:failed"]
                cbAfter := (cb.execute t1 (admittedExcept job op q)).2 }

/-- Projection of an executeJob result that got past the guards. -/
def okOutcome : Except String ExecOutcome → Option ExecOutcome
  | .ok o => some o
  | .error _ => none

/-- A job fixture used for concrete evaluations: id, dependency list and
enabled flag vary, the rest matches a plain freshly created job. -/
def mkJob (id : String) (deps : List String) (enabled : Bool) : ScheduledJob :=
  { id := id, name := id, description := "", cronExpression := "* * * * *",
    priority := 1,
    retryConfig := { maxRetries := 1, backoffMultiplier := 2, initialDelay := 100 },
    dependencies := deps, timeout := 5000, enabled := enabled,
    metadata := { createdAt := 0, updatedAt := 0, lastRun := none, nextRun := none,
                  runCount := 0, errorCount := 0, averageRunTime := 0 } }

/-- C3 counterexample: a job whose single dependency is missing from the
registry is refused when fired automatically, yet the same manual firing
(manual = true) is NOT refused by the dependency gate: the !manual guard
on line 429 skips the checkDependencies call entirely, contrary to the
claim that manual execution still passes through the gate and is refused. -/
theorem manual_bypasses_gate_cex :
    checkDependencies [("a", mkJob "a" ["missing"] true)] ["missing"] = false ∧
    executeJob [("a", mkJob "a" ["missing"] true)] (CircuitBreaker.init 5 60000)
      "a" false (fun _ => Except.ok 1) QueueOutcome.runsToEnd 100 200 =
      Except.error "Job dependencies not met: a" ∧
    isError (executeJob [("a", mkJob "a" ["missing"] true)]
      (CircuitBreaker.init 5 60000) "a" true (fun _ => Except.ok 1)
      QueueOutcome.runsToEnd 100 200) = false := by
  refine ⟨by decide, by decide, by decide⟩

/-- C3 amended: the dependency gate applies only to non-manual firings: an
automatic firing of an existing enabled job with unready dependencies is
refused with the dependencies-not-met error, while a manual execution of
an existing job skips both the enabled check and the gate and always gets
past the guards. -/
theorem dependency_gate_manual_exempt (jobs : List (String × ScheduledJob))
    (cb : CircuitBreaker) (jobId : String) (job : ScheduledJob)
    (op : Nat → Except String Nat) (q : QueueOutcome) (t0 t1 : Nat)
    (hj : assocGet jobs jobId = some job) :
    isError (executeJob jobs cb jobId true op q t0 t1) = false ∧
    (job.enabled = true → checkDependencies jobs job.dependencies = false →
      executeJob jobs cb jobId false op q t0 t1 =
        Except.error ("Job dependencies not met: " ++ jobId)) := by
  constructor
  · rw [executeJob, hj]
    simp only [if_neg (by simp : ¬ (job.enabled = false ∧ true = false)),
      if_neg (by simp : ¬ (true = false ∧ checkDependencies jobs job.dependencies = false))]
    cases hout : (cb.execute t1 (admittedExcept job op q)).1 <;> rfl
  · intro hen hdeps
    rw [executeJob, hj]
    simp [hen, hdeps]

/-- C3 witness: for a registry containing an enabled job with one unready
dependency, a manual run passes the guards. -/
theorem dependency_gate_manual_exempt_witness :
    isError (executeJob [("b", mkJob "b" ["x"] true)] (CircuitBreaker.init 5 60000)
      "b" true (fun _ => Except.ok 1) QueueOutcome.runsToEnd 0 0) = false :=
  (dependency_gate_manual_exempt [("b", mkJob "b" ["x"] true)]
    (CircuitBreaker.init 5 60000) "b" (mkJob "b" ["x"] true)
    (fun _ => Except.ok 1) QueueOutcome.runsToEnd 0 0 rfl).1

/-- C4 counterexample: an execution that fails because the admitted work
exceeded job.timeout (a queue timeout) is finalized with status failed,
not status timeout: the catch block of executeJob (line 481) writes the
literal failed for every failure cause, and no code path ever assigns the
timeout status. -/
theorem timeout_marked_failed_cex :
    (okOutcome (executeJob [("a", mkJob "a" [] true)] (CircuitBreaker.init 5 60000)
        "a" false (fun _ => Except.ok 1) (QueueOutcome.timesOutAfter 1) 100 200)).map
      (fun o => (o.execution.status, o.execution.error)) =
      some (Status.failed, some (queueTimeoutMsg 5000)) ∧
    Status.failed ≠ Status.timeout := by
  refine ⟨by decide, by decide⟩

/-- C4 amended: for every execution that fails — including a circuit-open
rejection and a queue timeout — the status is set to failed (the timeout
status is never assigned), the error field captures the failure message,
the owning job errorCount is incremented by 1, and job:failed is emitted
(with the job and the finalized execution in the payload, line 489). -/
theorem failure_finalization_spec (jobs : List (String × ScheduledJob))
    (cb : CircuitBreaker) (jobId : String) (job : ScheduledJob)
    (op : Nat → Except String Nat) (q : QueueOutcome) (t0 t1 : Nat) (msg : String)
    (hj : assocGet jobs jobId = some job)
    (hen : job.enabled = true)
    (hdeps : checkDependencies jobs job.dependencies = true)
    (hfail : (cb.execute t1 (admittedExcept job op q)).1 = CBOutcome.failed msg ∨
      ((cb.execute t1 (admittedExcept job op q)).1 = CBOutcome.rejected ∧
       msg = "Circuit breaker is OPEN - operation rejected")) :
    ∃ o, executeJob jobs cb jobId false op q t0 t1 = Except.ok o ∧
      o.execution.status = Status.failed ∧
      o.execution.status ≠ Status.timeout ∧
      o.execution.error = some msg ∧
      o.jobAfter.metadata.errorCount = job.metadata.errorCount + 1 ∧
      o.events = ["job:failed"] := by
  rw [executeJob, hj]
  rcases hfail with hf | ⟨hf, hmsg⟩
  · simp only [hen, hdeps, hf]
    exact ⟨_, rfl, rfl, fun h => Status.noConfusion h, rfl, rfl, rfl⟩
  · subst hmsg
    simp only [hen, hdeps, hf]
    exact ⟨_, rfl, rfl, fun h => Status.noConfusion h, rfl, rfl, rfl⟩

/-- C4 witness: a job whose body always throws is finalized failed with
the last retry error, the errorCount moving from 0 to 1. -/
theorem failure_finalization_spec_witness :
    ∃ o, executeJob [("c", mkJob "c" [] true)] (CircuitBreaker.init 5 60000)
        "c" false (fun _ => Except.error "dead") QueueOutcome.runsToEnd 10 20 =
        Except.ok o ∧
      o.execution.status = Status.failed ∧
      o.execution.status ≠ Status.timeout ∧
      o.execution.error = some "dead" ∧
      o.jobAfter.metadata.errorCount = (mkJob "c" [] true).metadata.errorCount + 1 ∧
      o.events = ["job:failed"] :=
  failure_finalization_spec [("c", mkJob "c" [] true)] (CircuitBreaker.init 5 60000)
    "c" (mkJob "c" [] true) (fun _ => Except.error "dead") QueueOutcome.runsToEnd
    10 20 "dead" rfl rfl rfl (Or.inl (by decide))

/-- Rank of a status along the pending → running → terminal order. -/
def statusRank : Status → Nat
  | .pending => 0
  | .running => 1
  | .completed => 2
  | .failed => 2
  | .timeout => 2

/-- Helper: a run of running states followed by a terminal status is
monotone in rank. -/
theorem run_chain (f : Status) (hf : 1 ≤ statusRank f) :
    ∀ m, List.Chain' (fun a b => statusRank a ≤ statusRank b)
      (Status.running :: (List.replicate m Status.running ++ [f]))
  | 0 => by
      simp only [List.replicate, List.nil_append, List.chain'_cons,
        List.chain'_singleton, and_true]
      exact hf
  | m + 1 => by
      simp only [List.replicate, List.cons_append, List.chain'_cons] at run_chain ⊢
      exact ⟨Nat.le_refl 1, run_chain f hf m⟩

/-- Helper: a full execution trace (pending, m running states, a terminal
state) is monotone in rank. -/
theorem trace_chain (f : Status) (hf : 1 ≤ statusRank f) (m : Nat) :
    List.Chain' (fun a b => statusRank a ≤ statusRank b)
      (Status.pending :: (List.replicate m Status.running ++ [f])) := by
  cases m with
  | zero =>
      simp only [List.replicate, List.nil_append, List.chain'_cons,
        List.chain'_singleton, and_true]
      exact Nat.le_trans (Nat.zero_le 1) hf
  | succ m =>
      simp only [List.replicate, List.cons_append, List.chain'_cons]
      exact ⟨Nat.zero_le 1, run_chain f hf m⟩

/-- C6 counterexample: a circuit-open rejection finalizes the execution
pending → failed without ever entering running — the claimed
never-skips-from-pending property fails on this path.  The breaker is
open with lastFailureTime 1000 and cooldown 60000, and the call settles at
2000, well inside the cooldown. -/
theorem pending_to_failed_skips_running_cex :
    (okOutcome (executeJob [("a", mkJob "a" [] true)]
        { failureCount := 5, lastFailureTime := 1000, state := CBState.opened,
          threshold := 5, timeout := 60000 }
        "a" false (fun _ => Except.ok 1) QueueOutcome.runsToEnd 1500 2000)).map
      (fun o => o.trace) = some [Status.pending, Status.failed] ∧
    ¬ Status.running ∈ [Status.pending, Status.failed] := by
  refine ⟨by decide, by decide⟩

/-- C6 amended: for every execution that gets past the guards, endTime is
at least startTime once set (the clock being monotone between admission
and settlement), and the status moves monotonically forward along
pending → running → terminal, never reversed; the trace starts at pending
and finishes completed or failed, but a circuit-open rejection skips
running and finalizes pending → failed directly. -/
theorem execution_status_monotone (jobs : List (String × ScheduledJob))
    (cb : CircuitBreaker) (jobId : String) (job : ScheduledJob) (manual : Bool)
    (op : Nat → Except String Nat) (q : QueueOutcome) (t0 t1 : Nat)
    (hj : assocGet jobs jobId = some job)
    (hguard : manual = true ∨
      (job.enabled = true ∧ checkDependencies jobs job.dependencies = true))
    (ht : t0 ≤ t1) :
    ∃ o, executeJob jobs cb jobId manual op q t0 t1 = Except.ok o ∧
      (∀ e, o.execution.endTime = some e → o.execution.startTime ≤ e) ∧
      List.Chain' (fun a b => statusRank a ≤ statusRank b) o.trace ∧
      o.trace.head? = some Status.pending ∧
      (o.execution.status = Status.completed ∨ o.execution.status = Status.failed) := by
  rw [executeJob, hj]
  have hred : ∀ rest : Except String ExecOutcome,
      (if job.enabled = false ∧ manual = false then
        Except.error ("Job is disabled: " ++ jobId)
      else if manual = false ∧ checkDependencies jobs job.dependencies = false then
        Except.error ("Job dependencies not met: " ++ jobId)
      else rest) = rest := by
    intro rest
    rcases hguard with hm | ⟨hen, hdeps⟩
    · rw [if_neg (by simp [hm]), if_neg (by simp [hm])]
    · rw [if_neg (by simp [hen]), if_neg (by simp [hdeps])]
  simp only [hred]
  cases hout : (cb.execute t1 (admittedExcept job op q)).1 with
  | rejected =>
      refine ⟨_, rfl, ?_, ?_, rfl, Or.inr rfl⟩
      · intro e he
        cases he
        exact ht
      · exact trace_chain Status.failed (by decide) 0
  | succeeded a =>
      refine ⟨_, rfl, ?_, ?_, rfl, Or.inl rfl⟩
      · intro e he
        cases he
        exact ht
      · exact trace_chain Status.completed (by decide) (bodyAttempts job op q)
  | failed msg =>
      refine ⟨_, rfl, ?_, ?_, rfl, Or.inr rfl⟩
      · intro e he
        cases he
        exact ht
      · exact trace_chain Status.failed (by decide) (bodyAttempts job op q)

/-- C6 witness: a successful manual run at times 10 and 20 satisfies the
monotone-status and endTime invariants. -/
theorem execution_status_monotone_witness :
    isError (executeJob [("w", mkJob "w" [] true)] (CircuitBreaker.init 5 60000)
      "w" true (fun _ => Except.ok 2) QueueOutcome.runsToEnd 10 20) = false := by
  obtain ⟨o, ho, _⟩ := execution_status_monotone [("w", mkJob "w" [] true)]
    (CircuitBreaker.init 5 60000) "w" (mkJob "w" [] true) true
    (fun _ => Except.ok 2) QueueOutcome.runsToEnd 10 20 rfl (Or.inl rfl)
    (by decide)
  rw [ho]
  rfl

/-- The numeric bounds of the zod JobSchema (lines 75-93): nonempty name,
priority within 1..5, backoffMultiplier at least 1, initialDelay at least
100, timeout at least 1000 (maxRetries at least 0 holds trivially for
Nat). -/
def JobSchema.check (j : JobDef) : Bool :=
  decide (1 ≤ j.name.length) && decide (1 ≤ j.priority) && decide (j.priority ≤ 5) &&
    decide (1 ≤ j.retryConfig.backoffMultiplier) &&
    decide (100 ≤ j.retryConfig.initialDelay) && decide (1000 ≤ j.timeout)

/-- The scheduler state touched by createJob and scheduleJob: the jobs map,
the cronTasks map (task handles keyed by job id), the set of task handles
on which start() has been called and no stop() since, and a counter
producing fresh task handles (cron.schedule allocates a new task object on
every call). -/
structure SchedulerState where
  jobs : List (String × ScheduledJob)
  cronTasks : List (String × Nat)
  started : List Nat
  nextTaskId : Nat
deriving DecidableEq, Repr

/-- scheduleJob (lines 398-415): create a fresh cron task, store it in
cronTasks under the job id (Map.set, replacing any handle already stored
there without calling stop() on it), start it, and record nextRun on the
stored job. -/
def scheduleJob (s : SchedulerState) (job : ScheduledJob) (now : Nat) : SchedulerState :=
  { jobs := assocSet s.jobs job.id
      { job with metadata := { job.metadata with nextRun := some (getNextRunTime now) } }
    cronTasks := assocSet s.cronTasks job.id s.nextTaskId
    started := s.nextTaskId :: s.started
    nextTaskId := s.nextTaskId + 1 }

/-- createJob (lines 295-336): validate the definition against the schema
and the cron expression (validity of the expression is supplied by the
external node-cron validate), build the job with fresh metadata (runCount,
errorCount and averageRunTime all 0), store it by Map.set — with no check
whether the id is already present — and schedule it when enabled.  Returns
the job id. -/
def createJob (s : SchedulerState) (jobData : JobDef) (now : Nat)
    (cronValid : String → Bool) : Except String (SchedulerState × String) :=
  if JobSchema.check jobData = false then
    .error "ValidationError"
  else if cronValid jobData.cronExpression = false then
    .error ("Invalid cron expression: " ++ jobData.cronExpression)
  else
    let job : ScheduledJob :=
      { toJobDef := jobData
        metadata := { createdAt := now, updatedAt := now, lastRun := none,
                      nextRun := none, runCount := 0, errorCount := 0,
                      averageRunTime := 0 } }
    let s1 : SchedulerState := { s with jobs := assocSet s.jobs job.id job }
    .ok (if job.enabled = true then scheduleJob s1 job now else s1, job.id)

/-- Helper: reading back the key just written by Map.set. -/
theorem assocGet_assocSet_self {α : Type} (m : List (String × α)) (k : String) (v : α) :
    assocGet (assocSet m k v) k = some v := by
  induction m with
  | nil => simp [assocSet, assocGet]
  | cons hd tl ih =>
      by_cases h : hd.1 = k
      · simp [assocSet, h, assocGet]
      · simp only [assocSet]
        rw [if_neg (by simpa using h)]
        simp only [assocGet]
        rw [if_neg (by simpa using h)]
        exact ih

/-- C10: createJob on an id already present in the registry raises no
duplicate-id error: it replaces the stored job with the new definition
(runCount, errorCount, averageRunTime reset to 0) and, when the new job is
enabled, installs and starts a fresh cron task under that id while the
previously installed task keeps running (it is never stopped). -/
theorem createJob_replaces_duplicate (s : SchedulerState) (jobData : JobDef)
    (now : Nat) (cronValid : String → Bool) (oldJob : ScheduledJob) (oldTid : Nat)
    (hold : assocGet s.jobs jobData.id = some oldJob)
    (htask : assocGet s.cronTasks jobData.id = some oldTid)
    (hstarted : oldTid ∈ s.started)
    (hfresh : oldTid < s.nextTaskId)
    (hvalid : JobSchema.check jobData = true)
    (hcron : cronValid jobData.cronExpression = true)
    (hen : jobData.enabled = true) :
    ∃ s2, createJob s jobData now cronValid = Except.ok (s2, jobData.id) ∧
      (∃ newJob, assocGet s2.jobs jobData.id = some newJob ∧
        newJob.toJobDef = jobData ∧ newJob.metadata.runCount = 0 ∧
        newJob.metadata.errorCount = 0 ∧ newJob.metadata.averageRunTime = 0) ∧
      assocGet s2.cronTasks jobData.id = some s.nextTaskId ∧
      s.nextTaskId ≠ oldTid ∧
      oldTid ∈ s2.started ∧ s.nextTaskId ∈ s2.started := by
  rw [createJob]
  rw [if_neg (by simp [hvalid]), if_neg (by simp [hcron])]
  simp only [hen, if_pos rfl]
  refine ⟨_, rfl, ?_, ?_, by omega, ?_, ?_⟩
  · have h := assocGet_assocSet_self
      (assocSet s.jobs jobData.id
        { toJobDef := jobData
          metadata := { createdAt := now, updatedAt := now, lastRun := none,
                        nextRun := none, runCount := 0, errorCount := 0,
                        averageRunTime := 0 } })
      jobData.id
      { toJobDef := jobData
        metadata := { createdAt := now, updatedAt := now, lastRun := none,
                      nextRun := some (getNextRunTime now), runCount := 0,
                      errorCount := 0, averageRunTime := 0 } }
    exact ⟨_, h, rfl, rfl, rfl, rfl⟩
  · exact assocGet_assocSet_self s.cronTasks jobData.id s.nextTaskId
  · exact List.mem_cons_of_mem _ hstarted
  · exact List.mem_cons_self _ _

/-- C10 witness: re-creating job id a over a one-job registry succeeds
without a duplicate error. -/
theorem createJob_replaces_duplicate_witness :
    isError (createJob
      { jobs := [("a", mkJob "a" [] true)], cronTasks := [("a", 0)],
        started := [0], nextTaskId := 1 }
      (mkJob "a" [] true).toJobDef 7 (fun _ => true)) = false := by
  obtain ⟨s2, hs2, _⟩ := createJob_replaces_duplicate
    { jobs := [("a", mkJob "a" [] true)], cronTasks := [("a", 0)],
      started := [0], nextTaskId := 1 }
    (mkJob "a" [] true).toJobDef 7 (fun _ => true) (mkJob "a" [] true) 0
    rfl rfl (by decide) (by decide) (by decide) rfl rfl
  rw [hs2]
  rfl

end SchedulerSpec
